import Mathlib

/-!
Verification development for the stock-whisperer-forecast repository.

The definitions below are a shallow embedding of the data-access and
forecasting code in `src/lib/api.ts` (the second, fallback-based revision of
the file, whose line numbers the claims cite), `src/lib/types.ts`
(`isIndianStock`), and the symbol-normalisation logic of
`src/components/StockSearch.tsx`.

Modelling conventions:
* JavaScript numbers are modelled as `ℚ` (exact rationals); `Math.sqrt` is
  not rational, so it is passed in as an oracle parameter `sqrtFn : ℚ → ℚ`.
* Calendar dates are modelled as `ℤ` day indices (the code only compares
  dates via `new Date(s).getTime()`, which is strictly monotone in the date,
  and steps them one day at a time); `Date.prototype.getDay` on day index
  `d` is `(d + 4) % 7` (day 0 of the epoch is a Thursday).
* `Math.random()` draws are modelled as an explicit stream `rand : ℕ → ℚ`.
* Number → string formatting (`toFixed(1)` inside reasoning templates) is
  abstracted by `jsToFixed1Str`; no claim depends on digit rendering.
* Symbols are `List Char`; the upstream HTTP provider is an oracle
  `Env : ℕ → List Char → ApiResult` giving the response of the n-th attempt
  for a symbol.  A thrown/failed transport (network error, non-success
  status, JSON parse failure, or any unclassified exception reaching the
  `catch`) is the single constructor `ApiResult.transportError`, since the
  code treats all of these identically in its `catch` block.
* The recursive `fetchStockData` is given explicit fuel; `none` means the
  recursion did not terminate within the given fuel.
-/

/-- JS `(x).toFixed(2)` coerced back to a number: round to 2 decimals. -/
def jsToFixed2 (q : ℚ) : ℚ := ((round (q * 100) : ℤ) : ℚ) / 100

/-- Abstraction of `x.toFixed(1)` used only inside reasoning strings. -/
def jsToFixed1Str (q : ℚ) : String := toString (round (q * 10) : ℤ)

/-- JS `array.slice(-n)`: the `n` most recent elements; `slice(-0)` is the
whole array. -/
def jsSliceLast {α : Type} (l : List α) (n : ℕ) : List α :=
  if n = 0 then l else l.drop (l.length - n)

/-- The `StockData` record from `types.ts` (prices as exact rationals,
date as an integer day index).  The field `open` is a Lean keyword, so it is
called `openPrice` here. -/
structure StockData where
  date : ℤ
  openPrice : ℚ
  high : ℚ
  low : ℚ
  close : ℚ
  volume : ℤ
deriving DecidableEq

/-- Default element standing for out-of-range indexing (never reached on the
guarded paths). -/
def noBar : StockData := ⟨0, 0, 0, 0, 0, 0⟩

/-- The recommendation union type of `Prediction` in `types.ts`. -/
inductive Recommendation where
  | strongBuy
  | buy
  | hold
  | sell
  | strongSell
deriving DecidableEq

/-- The `Prediction` record from `types.ts`. -/
structure Prediction where
  timeframe : String
  predictedPrice : ℚ
  confidence : ℚ
  recommendation : Recommendation
  reasoning : String
deriving DecidableEq

/-- The recommendation classification: the `if`-chain on
`priceChangePercent` at the end of `generatePrediction` in `api.ts`. -/
def recommendationOf (pc : ℚ) : Recommendation :=
  if pc > 5 then .strongBuy
  else if pc > 1.5 then .buy
  else if pc > -1.5 then .hold
  else if pc > -5 then .sell
  else .strongSell

/-- The per-bucket reasoning templates of `generatePrediction` (string
interpolation written as concatenation, numeric rendering abstracted). -/
def reasoningOf (timeframe : String) (pc : ℚ) : String :=
  if pc > 5 then
    "Our analysis indicates a potential " ++ jsToFixed1Str pc ++
      "% increase based on positive momentum and favorable technical indicators."
  else if pc > 1.5 then
    "With a projected " ++ jsToFixed1Str pc ++
      "% rise, technical indicators suggest bullish movement in the " ++
      timeframe ++ " timeframe."
  else if pc > -1.5 then
    "The stock shows mixed signals with a projected " ++ jsToFixed1Str pc ++
      "% change, suggesting a neutral position is appropriate."
  else if pc > -5 then
    "A projected " ++ jsToFixed1Str (abs pc) ++
      "% decrease based on negative technical indicators suggests reducing exposure."
  else
    "Our analysis forecasts a significant " ++ jsToFixed1Str (abs pc) ++
      "% decline due to negative momentum and bearish technical signals."

/-- Embedding of `generatePrediction` from `api.ts`: one prediction for one horizon.
`rnd` is the single `Math.random()` draw of this call. -/
def generatePrediction (timeframe : String) (daysFuture : ℚ)
    (currentPrice sma5 sma20 momentum volatility rnd : ℚ) : Prediction :=
  let shortTermTrend : ℚ := if sma5 > currentPrice then -0.01 else 0.01
  let longTermTrend : ℚ := if sma20 > currentPrice then -0.005 else 0.005
  let momentumEffect := momentum * 3
  let uncertaintyFactor := 1 + daysFuture / 50
  let volatilityEffect := volatility * daysFuture * 2
  let baseChange := (shortTermTrend + longTermTrend + momentumEffect) * daysFuture
  let randomNoise := (rnd - 0.5) * volatilityEffect * uncertaintyFactor
  let predictedChangePercent := baseChange + randomNoise
  let predictedPrice := jsToFixed2 (currentPrice * (1 + predictedChangePercent))
  let confidenceBase : ℚ := 0.85
  let confidenceAdjustment := daysFuture / 100 + volatility * 5
  let confidence := max 0.3 (min 0.95 (confidenceBase - confidenceAdjustment))
  let priceChangePercent := (predictedPrice - currentPrice) / currentPrice * 100
  { timeframe := timeframe
    predictedPrice := predictedPrice
    confidence := confidence
    recommendation := recommendationOf priceChangePercent
    reasoning := reasoningOf timeframe priceChangePercent }

/-- Embedding of `calculateSMA` from `api.ts` (`reduce` written as `foldl`). -/
def calculateSMA (data : List StockData) (period : ℕ) : ℚ :=
  if data.length < period then 0
  else ((jsSliceLast data period).map StockData.close).foldl (· + ·) 0 / (period : ℚ)

/-- The daily-returns loop of `calculateVolatility`: for `i` in `1..len-1`,
`(close[i] − close[i−1]) / close[i−1]`. -/
def dailyReturns (data : List StockData) : List ℚ :=
  (data.zip data.tail).map (fun p => (p.2.close - p.1.close) / p.1.close)

/-- Embedding of `calculateVolatility` from `api.ts`; `Math.sqrt` is the oracle
parameter `sqrtFn`. -/
def calculateVolatility (sqrtFn : ℚ → ℚ) (data : List StockData) : ℚ :=
  if data.length < 2 then 0
  else
    let returns := dailyReturns data
    let mean := returns.foldl (· + ·) 0 / (returns.length : ℚ)
    let squaredDiffs := returns.map (fun r => (r - mean) ^ 2)
    let variance := squaredDiffs.foldl (· + ·) 0 / (returns.length : ℚ)
    sqrtFn variance

/-- The fixed insufficient-data prediction of `generatePredictions`. -/
def insufficientPrediction (timeframe : String) : Prediction :=
  { timeframe := timeframe
    predictedPrice := 0
    confidence := 0.3
    recommendation := .hold
    reasoning := "Insufficient data to make a prediction." }

/-- Embedding of `generatePredictions` from `api.ts`.  `rand n` is the n-th
`Math.random()` draw of the call (one per `generatePrediction`). -/
def generatePredictions (sqrtFn : ℚ → ℚ) (rand : ℕ → ℚ)
    (stockData : List StockData) : List Prediction :=
  if stockData.length < 10 then
    [insufficientPrediction "Tomorrow",
     insufficientPrediction "Next Week",
     insufficientPrediction "Next Month"]
  else
    let recentData := jsSliceLast stockData 30
    let currentPrice := (recentData.getD (recentData.length - 1) noBar).close
    let sma5 := calculateSMA recentData 5
    let sma20 := calculateSMA recentData 20
    let priceChange7d :=
      (currentPrice - (recentData.getD (max (recentData.length - 8) 0) noBar).close) /
        (recentData.getD (max (recentData.length - 8) 0) noBar).close
    let priceChange14d :=
      (currentPrice - (recentData.getD (max (recentData.length - 15) 0) noBar).close) /
        (recentData.getD (max (recentData.length - 15) 0) noBar).close
    let volatility := calculateVolatility sqrtFn recentData
    [generatePrediction "Tomorrow" 1 currentPrice sma5 sma20 priceChange7d volatility (rand 0),
     generatePrediction "Next Week" 7 currentPrice sma5 sma20 priceChange7d volatility (rand 1),
     generatePrediction "Next Month" 30 currentPrice sma5 sma20 priceChange14d volatility (rand 2)]

/-- The `.NS` (NSE) exchange suffix, as a character list. -/
def nsSuf : List Char := ".NS".toList

/-- The `.BSE` exchange suffix, as a character list. -/
def bseSuf : List Char := ".BSE".toList

/-- Embedding of `isIndianStock` from `types.ts`:
`symbol.endsWith(".NS") || symbol.endsWith(".BSE")`. -/
def isIndianStock (symbol : List Char) : Bool :=
  nsSuf.isSuffixOf symbol || bseSuf.isSuffixOf symbol

/-- Whether `pat` is a prefix of `l` (Boolean helper for `replaceFirst`). -/
def isPrefixList : List Char → List Char → Bool
  | [], _ => true
  | _ :: _, [] => false
  | p :: ps, c :: cs => p = c && isPrefixList ps cs

/-- JS `String.prototype.replace(pat, repl)` with a string pattern: replace
only the first occurrence of `pat` (the original string if there is none). -/
def replaceFirst (pat repl : List Char) : List Char → List Char
  | [] => []
  | c :: cs =>
    if isPrefixList pat (c :: cs) then repl ++ (c :: cs).drop pat.length
    else c :: replaceFirst pat repl cs

/-- One daily record of the provider wire format, with the numeric-string
fields already parsed (`parseFloat`/`parseInt` abstracted). -/
structure WireBar where
  wopen : ℚ
  whigh : ℚ
  wlow : ℚ
  wclose : ℚ
  wvolume : ℤ
deriving DecidableEq

/-- The JSON shapes of a (transport-successful) time-series response that
`fetchStockData` distinguishes, in the order it tests them:
an empty object (or `null`), an object carrying an `Error Message` or
`Information` sentinel key, an object whose `Time Series (Daily)` field is
absent, and one whose `Time Series (Daily)` field holds the given date-keyed
entries (in arbitrary wire order; an empty entry list is the
`Object.keys(...).length === 0` case of the field). -/
inductive ApiResponse where
  | emptyObject
  | errorOrInfo
  | noSeriesField
  | timeSeries (entries : List (ℤ × WireBar))
deriving DecidableEq

/-- Outcome of one transport attempt: `transportError` covers a rejected
`fetch`, a non-`ok` status, a JSON parse failure and any other exception
reaching the `catch` block; `ok` carries the parsed JSON body. -/
inductive ApiResult where
  | transportError
  | ok (response : ApiResponse)
deriving DecidableEq

/-- Whether a response makes `fetchStockData` consider an alternate
exchange candidate (empty payload or error/rate-limit sentinel). -/
def isSoftFail : ApiResult → Bool
  | .ok .emptyObject => true
  | .ok .errorOrInfo => true
  | _ => false

/-- The upstream provider as an oracle: `env n sym` is the response of the
n-th (0-based) transport attempt of the fetch walk, for symbol `sym`. -/
def Env : Type := ℕ → List Char → ApiResult

/-- Advance the provider oracle past one consumed attempt. -/
def envShift (env : Env) : Env := fun n => env (n + 1)

/-- The weekday function `Date.prototype.getDay` on integer day index `d` (epoch day 0 is a
Thursday). -/
def jsGetDay (d : ℤ) : ℤ := (d + 4) % 7

/-- The weekend test `day === 0 || day === 6` of the mock-data loop. -/
def isWeekend (d : ℤ) : Bool := jsGetDay d == 0 || jsGetDay d == 6

/-- One pushed row of the mock-data loop, for date `today - i`, with
`rand k` the first of the five `Math.random()` draws of this iteration and
`basePrice` the already-updated walk value. -/
def mkMockBar (rand : ℕ → ℚ) (today : ℤ) (i : ℕ) (k : ℕ) (basePrice : ℚ) :
    StockData :=
  let dailyVolatility := basePrice * 0.02
  let high := basePrice + rand (k + 1) * dailyVolatility
  let low := basePrice - rand (k + 2) * dailyVolatility
  { date := today - i
    openPrice := jsToFixed2 (basePrice - rand (k + 3) * dailyVolatility / 2)
    high := jsToFixed2 high
    low := jsToFixed2 low
    close := jsToFixed2 basePrice
    volume := ⌊rand (k + 4) * 1000000⌋ + 500000 }

/-- The `for (let i = days; i >= 0; i--)` loop of `generateMockStockData`:
weekends are skipped (consuming no draws), otherwise the random walk
`basePrice * (1 + changePercent / 100)` is applied and a row is pushed. -/
def mockLoop (rand : ℕ → ℚ) (today : ℤ) : ℕ → ℕ → ℚ → List StockData
  | 0, k, basePrice =>
    if isWeekend today then []
    else [mkMockBar rand today 0 k (basePrice * (1 + (rand k - 0.5) * 2 / 100))]
  | i + 1, k, basePrice =>
    if isWeekend (today - (i + 1 : ℕ)) then mockLoop rand today i k basePrice
    else
      let basePrice2 := basePrice * (1 + (rand k - 0.5) * 2 / 100)
      mkMockBar rand today (i + 1) k basePrice2 ::
        mockLoop rand today i (k + 5) basePrice2

/-- JS `String.prototype.includes`: substring test. -/
def hasSubstr (pat : List Char) : List Char → Bool
  | [] => pat.isEmpty
  | c :: cs => isPrefixList pat (c :: cs) || hasSubstr pat cs

/-- Embedding of `generateMockStockData` from `api.ts` (the `toast.warning` side effect
is dropped; the two-step base-price choice is written as one chain, the
popular-symbol override taking priority as in the source). -/
def generateMockStockData (rand : ℕ → ℚ) (today : ℤ) (symbol : List Char)
    (days : ℕ) : List StockData :=
  let basePrice : ℚ :=
    if hasSubstr "RELIANCE".toList symbol || hasSubstr "TCS".toList symbol ||
        hasSubstr "HDFC".toList symbol || hasSubstr "INFY".toList symbol then
      2500
    else if isIndianStock symbol then 1500 else 100
  mockLoop rand today days 0 basePrice

/-- The comparator key of the final `.sort((a, b) => ...)`: ascending date. -/
def dateLE (a b : StockData) : Prop := a.date ≤ b.date

instance : DecidableRel dateLE := fun a b => Int.decLe a.date b.date

instance : IsTotal StockData dateLE := ⟨fun a b => le_total a.date b.date⟩

instance : IsTrans StockData dateLE := ⟨fun _ _ _ h h' => le_trans h h'⟩

/-- The success path of `fetchStockData`: map each wire record to a
`StockData` and re-sort ascending by date. -/
def parseEntries (entries : List (ℤ × WireBar)) : List StockData :=
  (entries.map fun e =>
      { date := e.1
        openPrice := e.2.wopen
        high := e.2.whigh
        low := e.2.wlow
        close := e.2.wclose
        volume := e.2.wvolume }).insertionSort dateLE

/-- Embedding of `fetchStockData` from `api.ts` (second revision). `fuel` bounds the
recursive alternate-exchange walk; `none` means the recursion did not
finish within `fuel` attempts (the source recursion is unbounded).
Everything the `catch` block receives becomes the mock series, so no
exception escapes. -/
def fetchStockData (rand : ℕ → ℚ) (today : ℤ) (env : Env) :
    ℕ → List Char → Option (List StockData)
  | 0, _ => none
  | fuel + 1, symbol =>
    match env 0 symbol with
    | .transportError => some (generateMockStockData rand today symbol 365)
    | .ok .emptyObject =>
      if isIndianStock symbol then
        if nsSuf.isSuffixOf symbol then
          fetchStockData rand today (envShift env) fuel (replaceFirst nsSuf bseSuf symbol)
        else if bseSuf.isSuffixOf symbol then
          fetchStockData rand today (envShift env) fuel (replaceFirst bseSuf nsSuf symbol)
        else some (generateMockStockData rand today symbol 365)
      else some (generateMockStockData rand today symbol 365)
    | .ok .errorOrInfo =>
      if isIndianStock symbol then
        if nsSuf.isSuffixOf symbol then
          fetchStockData rand today (envShift env) fuel (replaceFirst nsSuf bseSuf symbol)
        else if bseSuf.isSuffixOf symbol then
          fetchStockData rand today (envShift env) fuel (replaceFirst bseSuf nsSuf symbol)
        else some (generateMockStockData rand today symbol 365)
      else some (generateMockStockData rand today symbol 365)
    | .ok .noSeriesField => some (generateMockStockData rand today symbol 365)
    | .ok (.timeSeries entries) =>
      if entries = [] then some (generateMockStockData rand today symbol 365)
      else some (parseEntries entries)

/-- The sequence of symbols on which `fetchStockData` consults the provider
(same walk as `fetchStockData`, collecting the attempted candidates). -/
def fetchAttempts (env : Env) : ℕ → List Char → List (List Char)
  | 0, _ => []
  | fuel + 1, symbol =>
    symbol ::
      match env 0 symbol with
      | .ok .emptyObject =>
        if isIndianStock symbol then
          if nsSuf.isSuffixOf symbol then
            fetchAttempts (envShift env) fuel (replaceFirst nsSuf bseSuf symbol)
          else if bseSuf.isSuffixOf symbol then
            fetchAttempts (envShift env) fuel (replaceFirst bseSuf nsSuf symbol)
          else []
        else []
      | .ok .errorOrInfo =>
        if isIndianStock symbol then
          if nsSuf.isSuffixOf symbol then
            fetchAttempts (envShift env) fuel (replaceFirst nsSuf bseSuf symbol)
          else if bseSuf.isSuffixOf symbol then
            fetchAttempts (envShift env) fuel (replaceFirst bseSuf nsSuf symbol)
          else []
        else []
      | _ => []

/-- The `NewsItem` record from `types.ts` (dates as integer timestamps). -/
structure NewsItem where
  title : String
  date : ℤ
  source : String
  summary : String
  url : String
deriving DecidableEq

/-- One article of the provider news feed (`time_published` already
parsed to a timestamp). -/
structure WireNews where
  ntitle : String
  ntime : ℤ
  nsource : String
  nsummary : String
  nurl : String
deriving DecidableEq

/-- The JSON shapes of a (transport-successful) news response that
`fetchStockNews` distinguishes: an `Information` rate-limit sentinel, a
missing/non-array `feed` field, or a `feed` array (possibly empty). -/
inductive NewsResponse where
  | infoSentinel
  | noFeedField
  | feed (items : List WireNews)
deriving DecidableEq

/-- Outcome of the news transport attempt. -/
inductive NewsResult where
  | transportError
  | ok (response : NewsResponse)
deriving DecidableEq

/-- The placeholder returned when the news endpoint has no usable feed. -/
def noNewsPlaceholder (now : ℤ) (symbol : List Char) : NewsItem :=
  { title := "No recent news found for " ++ String.mk symbol
    date := now
    source := "StockWhisperer"
    summary := "Try searching for news about this company on financial news sites."
    url := "#" }

/-- The placeholder returned from the `catch` block of `fetchStockNews`. -/
def newsErrorPlaceholder (now : ℤ) (symbol : List Char) : NewsItem :=
  { title := "Could not retrieve news for " ++ String.mk symbol
    date := now
    source := "StockWhisperer"
    summary := "There was an error fetching news for this stock. Please try again later."
    url := "#" }

/-- Embedding of `fetchStockNews` from `api.ts` (second revision): `newsEnv` is the
provider response for the base symbol, `now` the current timestamp used in
placeholder dates.  The request strips the exchange suffix
(`symbol.split(".")[0]`), which does not affect the claims modelled here. -/
def fetchStockNews (now : ℤ) (newsEnv : List Char → NewsResult)
    (symbol : List Char) : List NewsItem :=
  match newsEnv symbol with
  | .transportError => [newsErrorPlaceholder now symbol]
  | .ok .infoSentinel => [noNewsPlaceholder now symbol]
  | .ok .noFeedField => [noNewsPlaceholder now symbol]
  | .ok (.feed items) =>
    if items = [] then [noNewsPlaceholder now symbol]
    else
      (items.take 3).map fun it =>
        { title := it.ntitle
          date := it.ntime
          source := it.nsource
          summary := it.nsummary
          url := it.nurl }

/-- One entry of the `popularStocks` table in `StockSearch.tsx`. -/
structure PopularStock where
  pname : String
  psymbol : List Char
deriving DecidableEq

/-- The `popularStocks` table of `StockSearch.tsx` (second revision). -/
def popularStocks : List PopularStock :=
  [⟨"Apple", "AAPL".toList⟩,
   ⟨"Microsoft", "MSFT".toList⟩,
   ⟨"Amazon", "AMZN".toList⟩,
   ⟨"Tesla", "TSLA".toList⟩,
   ⟨"Google", "GOOGL".toList⟩,
   ⟨"Reliance Industries", "RELIANCE.NS".toList⟩,
   ⟨"Tata Consultancy", "TCS.NS".toList⟩,
   ⟨"HDFC Bank", "HDFCBANK.NS".toList⟩,
   ⟨"Infosys", "INFY.NS".toList⟩,
   ⟨"ICICI Bank", "ICICIBANK.NS".toList⟩]

/-- JS `s.split(".")[0]`: the characters before the first dot. -/
def splitBase (s : List Char) : List Char := s.takeWhile (· ≠ '.')

/-- One character of the `/^[A-Za-z&]+$/` class. -/
def alphaAmp (c : Char) : Bool :=
  ('A' ≤ c && c ≤ 'Z') || ('a' ≤ c && c ≤ 'z') || c = '&'

/-- The known-US-ticker exception list of the heuristic. -/
def usTickers : List (List Char) :=
  ["AAPL".toList, "MSFT".toList, "AMZN".toList, "TSLA".toList,
   "GOOGL".toList, "FB".toList, "NFLX".toList]

/-- Embedding of `isLikelyIndianStock` from `StockSearch.tsx`: alphabetic (or `&`), no
dot, length at least 2, and not a known US ticker.  The symbol is the
already trimmed and upper-cased search input. -/
def isLikelyIndianStock (symbol : List Char) : Bool :=
  (!symbol.isEmpty && symbol.all alphaAmp) && !symbol.contains '.' &&
    decide (2 ≤ symbol.length) && !usTickers.contains symbol

/-- The symbol normalisation of `handleSearch` in `StockSearch.tsx`: a
popular-list match replaces the input by the listed (suffixed) symbol,
otherwise the likely-Indian heuristic appends `.NS`. -/
def resolveSearchSymbol (symbol : List Char) : List Char :=
  match popularStocks.find? (fun st => splitBase st.psymbol == symbol) with
  | some st => st.psymbol
  | none => if isLikelyIndianStock symbol then symbol ++ nsSuf else symbol

/-- Modelled from the spec (§4.4): `momentum(series, lookbackDays)` is the
fractional change from the close `lookbackDays` before the latest close,
the reference index clamped to the series start when the lookback exceeds
the available history. -/
def momentumSpec (series : List StockData) (lookbackDays : ℕ) : ℚ :=
  let latest := (series.getD (series.length - 1) noBar).close
  let ref := (series.getD (series.length - (lookbackDays + 1)) noBar).close
  (latest - ref) / ref

/-- Modelled from the spec (§4.5): `clamp(x, lo, hi)`. -/
def clampSpec (x lo hi : ℚ) : ℚ := max lo (min x hi)

/-- A concrete 10-point series used by witnesses. -/
def sampleTen : List StockData :=
  [⟨0, 1, 1, 1, 1, 9⟩, ⟨1, 2, 2, 2, 2, 9⟩, ⟨2, 3, 3, 3, 3, 9⟩,
   ⟨3, 4, 4, 4, 4, 9⟩, ⟨4, 5, 5, 5, 5, 9⟩, ⟨5, 6, 6, 6, 6, 9⟩,
   ⟨6, 7, 7, 7, 7, 9⟩, ⟨7, 8, 8, 8, 8, 9⟩, ⟨8, 9, 9, 9, 9, 9⟩,
   ⟨9, 10, 10, 10, 10, 9⟩]

/-- A provider that answers every attempt for every symbol with the
error/rate-limit sentinel. -/
def sentinelEnv : Env := fun _ _ => .ok .errorOrInfo

/-- A fixed random stream used by witnesses. -/
def rand0 : ℕ → ℚ := fun _ => 0

/-- A concrete two-day wire payload, deliberately in descending date
order. -/
def wirePair : List (ℤ × WireBar) :=
  [(1, ⟨10, 11, 9, 10, 100⟩), (0, ⟨9, 10, 8, 9, 90⟩)]

/-- A provider that always returns the `wirePair` time series. -/
def tsEnv : Env := fun _ _ => .ok (.timeSeries wirePair)

/-- Three consecutive days are never all weekend days. -/
theorem threeConsecutiveWeekday (t : ℤ) :
    ¬(isWeekend (t - 2) = true ∧ isWeekend (t - 1) = true ∧ isWeekend t = true) := by
  simp only [isWeekend, jsGetDay, Bool.or_eq_true, beq_iff_eq]
  omega

/-- If the mock loop produced nothing, every day it visited was a
weekend. -/
theorem mockLoop_eq_nil_weekend (rand : ℕ → ℚ) (today : ℤ) :
    ∀ (i k : ℕ) (b : ℚ), mockLoop rand today i k b = [] →
      ∀ j : ℕ, j ≤ i → isWeekend (today - j) = true := by
  intro i
  induction i with
  | zero =>
    intro k b hnil j hj
    have hj0 : j = 0 := by omega
    subst hj0
    rw [mockLoop] at hnil
    by_cases hw : isWeekend today = true
    · simpa using hw
    · rw [if_neg hw] at hnil; simp at hnil
  | succ n ih =>
    intro k b hnil j hj
    rw [mockLoop] at hnil
    by_cases hw : isWeekend (today - (n + 1 : ℕ)) = true
    · rw [if_pos hw] at hnil
      rcases Nat.lt_or_ge j (n + 1) with hjn | hjn
      · exact ih k b hnil j (by omega)
      · have hj1 : j = n + 1 := by omega
        subst hj1
        exact hw
    · rw [if_neg hw] at hnil; simp at hnil

/-- A mock loop over at least 3 calendar days is non-empty. -/
theorem mockLoop_ne_nil (rand : ℕ → ℚ) (today : ℤ) (i k : ℕ) (b : ℚ)
    (h : 2 ≤ i) : mockLoop rand today i k b ≠ [] := by
  intro hnil
  have h0 := mockLoop_eq_nil_weekend rand today i k b hnil 0 (by omega)
  have h1 := mockLoop_eq_nil_weekend rand today i k b hnil 1 (by omega)
  have h2 := mockLoop_eq_nil_weekend rand today i k b hnil 2 (by omega)
  refine threeConsecutiveWeekday today ⟨?_, ?_, ?_⟩
  · exact_mod_cast h2
  · exact_mod_cast h1
  · simpa using h0

/-- Every element the mock loop emits for countdown `i` is dated at or
after `today - i`. -/
theorem mockLoop_date_lb (rand : ℕ → ℚ) (today : ℤ) :
    ∀ (i k : ℕ) (b : ℚ) (x : StockData),
      x ∈ mockLoop rand today i k b → today - i ≤ x.date := by
  intro i
  induction i with
  | zero =>
    intro k b x hx
    rw [mockLoop] at hx
    split at hx
    · simp at hx
    · rcases List.mem_singleton.mp hx with rfl
      simp [mkMockBar]
  | succ n ih =>
    intro k b x hx
    rw [mockLoop] at hx
    split at hx
    · have := ih k b x hx
      push_cast
      push_cast at this
      omega
    · rcases List.mem_cons.mp hx with rfl | hx
      · simp [mkMockBar]
      · have := ih (k + 5) _ x hx
        push_cast
        push_cast at this
        omega

/-- The mock loop emits strictly ascending dates. -/
theorem mockLoop_sorted (rand : ℕ → ℚ) (today : ℤ) :
    ∀ (i k : ℕ) (b : ℚ),
      (mockLoop rand today i k b).Pairwise (fun a c => a.date < c.date) := by
  intro i
  induction i with
  | zero =>
    intro k b
    rw [mockLoop]
    split
    · exact List.Pairwise.nil
    · exact List.pairwise_singleton _ _
  | succ n ih =>
    intro k b
    rw [mockLoop]
    split
    · exact ih k b
    · refine List.Pairwise.cons ?_ (ih (k + 5) _)
      intro x hx
      have hlb := mockLoop_date_lb rand today n (k + 5) _ x hx
      simp only [mkMockBar]
      push_cast
      push_cast at hlb
      omega

/-- A year of mock data is non-empty with strictly ascending dates. -/
theorem generateMock_good (rand : ℕ → ℚ) (today : ℤ) (symbol : List Char) :
    generateMockStockData rand today symbol 365 ≠ [] ∧
      ((generateMockStockData rand today symbol 365).map StockData.date).Pairwise
        (· < ·) := by
  constructor
  · exact mockLoop_ne_nil rand today 365 0 _ (by omega)
  · rw [List.pairwise_map]
    exact mockLoop_sorted rand today 365 0 _

/-- Parsing a non-empty wire payload yields a non-empty series. -/
theorem parseEntries_ne_nil {entries : List (ℤ × WireBar)} (h : entries ≠ []) :
    parseEntries entries ≠ [] := by
  intro hnil
  apply h
  have hlen : (parseEntries entries).length = entries.length := by
    rw [parseEntries, List.length_insertionSort, List.length_map]
  rw [hnil] at hlen
  exact List.length_eq_zero.mp hlen.symm

/-- Parsing a wire payload with pairwise distinct date keys yields a
series with strictly ascending dates. -/
theorem parseEntries_sorted {entries : List (ℤ × WireBar)}
    (h : (entries.map Prod.fst).Nodup) :
    ((parseEntries entries).map StockData.date).Pairwise (· < ·) := by
  have hsorted : (parseEntries entries).Pairwise dateLE :=
    List.sorted_insertionSort dateLE _
  have hle : ((parseEntries entries).map StockData.date).Pairwise (· ≤ ·) :=
    List.pairwise_map.mpr hsorted
  have hperm := (List.perm_insertionSort dateLE
    (entries.map fun e =>
      ({ date := e.1, openPrice := e.2.wopen, high := e.2.whigh,
         low := e.2.wlow, close := e.2.wclose,
         volume := e.2.wvolume } : StockData))).map StockData.date
  have hnd : ((parseEntries entries).map StockData.date).Nodup := by
    rw [parseEntries]
    refine (List.Perm.nodup_iff hperm).mpr ?_
    rw [List.map_map]
    exact h
  exact (hle.and hnd).imp fun hab => lt_of_le_of_ne hab.1 hab.2

/-- A left fold of `+` over rationals is the list sum. -/
theorem foldlAdd_eq_sum (l : List ℚ) : l.foldl (· + ·) 0 = l.sum := by
  suffices h : ∀ (a : ℚ), l.foldl (· + ·) a = a + l.sum by
    simpa using h 0
  induction l with
  | nil => simp
  | cons x xs ih => intro a; simp [ih, add_assoc]

/-- C3: with fewer than 10 points the forecast returns exactly one
prediction per requested horizon (the three fixed horizons), each a Hold
with confidence exactly 0.30 and the insufficient-data reasoning string. -/
theorem forecast_insufficient_hold (sqrtFn : ℚ → ℚ) (rand : ℕ → ℚ)
    (stockData : List StockData) (h : stockData.length < 10) :
    (generatePredictions sqrtFn rand stockData).length = 3 ∧
      ∀ p ∈ generatePredictions sqrtFn rand stockData,
        p.recommendation = .hold ∧ p.confidence = 0.3 ∧
          p.reasoning = "Insufficient data to make a prediction." := by
  rw [generatePredictions, if_pos h]
  refine ⟨rfl, ?_⟩
  intro p hp
  rcases List.mem_cons.mp hp with rfl | hp
  · exact ⟨rfl, rfl, rfl⟩
  rcases List.mem_cons.mp hp with rfl | hp
  · exact ⟨rfl, rfl, rfl⟩
  rcases List.mem_cons.mp hp with rfl | hp
  · exact ⟨rfl, rfl, rfl⟩
  exact absurd hp (List.not_mem_nil p)

/-- Witness for C3 at the empty series. -/
theorem forecast_insufficient_hold_witness :
    (generatePredictions (fun q => q) (fun _ => 0) []).length = 3 ∧
      ∀ p ∈ generatePredictions (fun q => q) (fun _ => 0) [],
        p.recommendation = .hold ∧ p.confidence = 0.3 ∧
          p.reasoning = "Insufficient data to make a prediction." :=
  forecast_insufficient_hold (fun q => q) (fun _ => 0) [] (by decide)

/-- C10: with fewer than 10 points every returned prediction carries the
sentinel predicted price 0. -/
theorem insufficient_price_sentinel_zero (sqrtFn : ℚ → ℚ) (rand : ℕ → ℚ)
    (stockData : List StockData) (h : stockData.length < 10) :
    ∀ p ∈ generatePredictions sqrtFn rand stockData, p.predictedPrice = 0 := by
  rw [generatePredictions, if_pos h]
  intro p hp
  rcases List.mem_cons.mp hp with rfl | hp
  · rfl
  rcases List.mem_cons.mp hp with rfl | hp
  · rfl
  rcases List.mem_cons.mp hp with rfl | hp
  · rfl
  exact absurd hp (List.not_mem_nil p)

/-- Witness for C10 at a concrete 3-point series. -/
theorem insufficient_price_sentinel_zero_witness :
    (insufficientPrediction "Tomorrow").predictedPrice = 0 :=
  insufficient_price_sentinel_zero (fun q => q) (fun _ => 1)
    [⟨0, 1, 1, 1, 1, 0⟩, ⟨1, 2, 2, 2, 2, 0⟩, ⟨2, 3, 3, 3, 3, 0⟩] (by decide)
    (insufficientPrediction "Tomorrow") (List.mem_cons_self _ _)

/-- C5: the recommendation of every generated prediction is the fixed
threshold classification of the percent change between its predicted price
and the current price, and that classification sends 6.0 to Strong Buy,
-6.0 to Strong Sell and 0.0 to Hold. -/
theorem recommendation_of_percent_change :
    (∀ (t : String) (d cp s5 s20 mom vol rnd : ℚ),
        (generatePrediction t d cp s5 s20 mom vol rnd).recommendation =
          recommendationOf
            (((generatePrediction t d cp s5 s20 mom vol rnd).predictedPrice - cp) /
              cp * 100)) ∧
      recommendationOf 6 = .strongBuy ∧ recommendationOf (-6) = .strongSell ∧
        recommendationOf 0 = .hold := by
  refine ⟨fun t d cp s5 s20 mom vol rnd => rfl, ?_, ?_, ?_⟩
  · norm_num [recommendationOf]
  · norm_num [recommendationOf]
  · norm_num [recommendationOf]

/-- C6: the confidence of every generated prediction equals
`clamp(0.85 - (h/100 + volatility*5), 0.30, 0.95)` and always lies in
`[0.30, 0.95]`, for every horizon and volatility. -/
theorem confidence_clamp_bounds (t : String) (d cp s5 s20 mom vol rnd : ℚ) :
    (generatePrediction t d cp s5 s20 mom vol rnd).confidence =
        clampSpec (0.85 - (d / 100 + vol * 5)) 0.3 0.95 ∧
      0.3 ≤ (generatePrediction t d cp s5 s20 mom vol rnd).confidence ∧
        (generatePrediction t d cp s5 s20 mom vol rnd).confidence ≤ 0.95 := by
  refine ⟨?_, ?_, ?_⟩
  · show max 0.3 (min 0.95 (0.85 - (d / 100 + vol * 5))) = _
    rw [clampSpec, min_comm]
  · exact le_max_left _ _
  · exact max_le (by norm_num) (min_le_left _ _)

/-- C7: the SMA is 0 on series shorter than the period, the mean of all
closes on series of exactly the period length, and in general the mean of
the period most recent closes. -/
theorem sma_insufficient_and_mean (data : List StockData) (period : ℕ) :
    (data.length < period → calculateSMA data period = 0) ∧
      (data.length = period →
        calculateSMA data period = (data.map StockData.close).sum / (period : ℚ)) ∧
      (period ≤ data.length →
        calculateSMA data period =
          ((data.drop (data.length - period)).map StockData.close).sum / (period : ℚ)) := by
  refine ⟨fun h => by rw [calculateSMA, if_pos h], ?_, ?_⟩
  · intro h
    rw [calculateSMA, if_neg (by omega), foldlAdd_eq_sum]
    rcases Nat.eq_zero_or_pos period with hp | hp
    · subst hp
      have hd : data = [] := List.length_eq_zero.mp h
      subst hd
      rfl
    · rw [jsSliceLast, if_neg (by omega), h, Nat.sub_self, List.drop_zero]
  · intro h
    rw [calculateSMA, if_neg (by omega), foldlAdd_eq_sum]
    rcases Nat.eq_zero_or_pos period with hp | hp
    · subst hp
      rw [Nat.sub_zero, List.drop_length, jsSliceLast, if_pos rfl]
      simp
    · rw [jsSliceLast, if_neg (by omega)]

/-- Witness for C7: a 2-point series against periods 3 (too short), 2
(whole-series mean) and 1 (most recent close). -/
theorem sma_insufficient_and_mean_witness :
    calculateSMA [⟨0, 2, 2, 2, 2, 5⟩, ⟨1, 4, 4, 4, 4, 5⟩] 3 = 0 ∧
      calculateSMA [⟨0, 2, 2, 2, 2, 5⟩, ⟨1, 4, 4, 4, 4, 5⟩] 2 =
        (([⟨0, 2, 2, 2, 2, 5⟩, ⟨1, 4, 4, 4, 4, 5⟩] :
            List StockData).map StockData.close).sum / (2 : ℚ) ∧
      calculateSMA [⟨0, 2, 2, 2, 2, 5⟩, ⟨1, 4, 4, 4, 4, 5⟩] 1 =
        ((([⟨0, 2, 2, 2, 2, 5⟩, ⟨1, 4, 4, 4, 4, 5⟩] :
            List StockData).drop (2 - 1)).map StockData.close).sum / (1 : ℚ) :=
  ⟨(sma_insufficient_and_mean _ 3).1 (by decide),
   (sma_insufficient_and_mean _ 2).2.1 (by decide),
   (sma_insufficient_and_mean _ 1).2.2 (by decide)⟩

/-- C8: with at least 10 points, the 1-day and 7-day horizons both receive
the 7-day momentum of the trailing 30-point window and the 30-day horizon
receives the 14-day momentum, the lookback index clamped to the window
start. -/
theorem horizon_momentum_wiring (sqrtFn : ℚ → ℚ) (rand : ℕ → ℚ)
    (stockData : List StockData) (h : 10 ≤ stockData.length) :
    generatePredictions sqrtFn rand stockData =
      [generatePrediction "Tomorrow" 1
        ((jsSliceLast stockData 30).getD ((jsSliceLast stockData 30).length - 1) noBar).close
        (calculateSMA (jsSliceLast stockData 30) 5)
        (calculateSMA (jsSliceLast stockData 30) 20)
        (momentumSpec (jsSliceLast stockData 30) 7)
        (calculateVolatility sqrtFn (jsSliceLast stockData 30)) (rand 0),
       generatePrediction "Next Week" 7
        ((jsSliceLast stockData 30).getD ((jsSliceLast stockData 30).length - 1) noBar).close
        (calculateSMA (jsSliceLast stockData 30) 5)
        (calculateSMA (jsSliceLast stockData 30) 20)
        (momentumSpec (jsSliceLast stockData 30) 7)
        (calculateVolatility sqrtFn (jsSliceLast stockData 30)) (rand 1),
       generatePrediction "Next Month" 30
        ((jsSliceLast stockData 30).getD ((jsSliceLast stockData 30).length - 1) noBar).close
        (calculateSMA (jsSliceLast stockData 30) 5)
        (calculateSMA (jsSliceLast stockData 30) 20)
        (momentumSpec (jsSliceLast stockData 30) 14)
        (calculateVolatility sqrtFn (jsSliceLast stockData 30)) (rand 2)] := by
  rw [generatePredictions, if_neg (by omega)]
  simp only [momentumSpec, Nat.max_zero]

/-- Witness for C8 at a concrete 10-point series. -/
theorem horizon_momentum_wiring_witness :
    generatePredictions (fun q => q) (fun _ => 1) sampleTen =
      [generatePrediction "Tomorrow" 1
        ((jsSliceLast sampleTen 30).getD ((jsSliceLast sampleTen 30).length - 1) noBar).close
        (calculateSMA (jsSliceLast sampleTen 30) 5)
        (calculateSMA (jsSliceLast sampleTen 30) 20)
        (momentumSpec (jsSliceLast sampleTen 30) 7)
        (calculateVolatility (fun q => q) (jsSliceLast sampleTen 30)) 1,
       generatePrediction "Next Week" 7
        ((jsSliceLast sampleTen 30).getD ((jsSliceLast sampleTen 30).length - 1) noBar).close
        (calculateSMA (jsSliceLast sampleTen 30) 5)
        (calculateSMA (jsSliceLast sampleTen 30) 20)
        (momentumSpec (jsSliceLast sampleTen 30) 7)
        (calculateVolatility (fun q => q) (jsSliceLast sampleTen 30)) 1,
       generatePrediction "Next Month" 30
        ((jsSliceLast sampleTen 30).getD ((jsSliceLast sampleTen 30).length - 1) noBar).close
        (calculateSMA (jsSliceLast sampleTen 30) 5)
        (calculateSMA (jsSliceLast sampleTen 30) 20)
        (momentumSpec (jsSliceLast sampleTen 30) 14)
        (calculateVolatility (fun q => q) (jsSliceLast sampleTen 30)) 1] :=
  horizon_momentum_wiring (fun q => q) (fun _ => 1) sampleTen (by decide)

/-- C9: every Information/rate-limit sentinel, transport error, or
missing/empty feed makes the news fetch return exactly one placeholder
item, never an empty list and never an exception. -/
theorem news_single_placeholder (now : ℤ) (newsEnv : List Char → NewsResult)
    (symbol : List Char)
    (h : newsEnv symbol = .transportError ∨
         newsEnv symbol = .ok .infoSentinel ∨
         newsEnv symbol = .ok .noFeedField ∨
         newsEnv symbol = .ok (.feed [])) :
    (fetchStockNews now newsEnv symbol).length = 1 ∧
      fetchStockNews now newsEnv symbol =
        (if newsEnv symbol = .transportError then [newsErrorPlaceholder now symbol]
         else [noNewsPlaceholder now symbol]) := by
  rcases h with h | h | h | h <;> rw [fetchStockNews, h] <;> simp

/-- Witness for C9 at a rate-limit sentinel response. -/
theorem news_single_placeholder_witness :
    (fetchStockNews 0 (fun _ => .ok .infoSentinel) "AAPL".toList).length = 1 ∧
      fetchStockNews 0 (fun _ => .ok .infoSentinel) "AAPL".toList =
        (if (fun (_ : List Char) => NewsResult.ok .infoSentinel) "AAPL".toList =
            .transportError then
          [newsErrorPlaceholder 0 "AAPL".toList]
         else [noNewsPlaceholder 0 "AAPL".toList]) :=
  news_single_placeholder 0 (fun _ => .ok .infoSentinel) "AAPL".toList
    (Or.inr (Or.inl rfl))

/-- C1 (failing input): with the provider persistently answering the
error/rate-limit sentinel for every symbol, the fetch of an `.NS`-suffixed
symbol alternates between the NSE and BSE candidates forever and never
returns any series, real or synthetic — for every recursion budget the
walk is still running.  This contradicts the guarantee that the caller
always receives a usable series. -/
theorem fetch_indian_sentinel_divergence (fuel : ℕ) (rand : ℕ → ℚ) (today : ℤ) :
    fetchStockData rand today sentinelEnv fuel "RELIANCE.NS".toList = none ∧
      fetchStockData rand today sentinelEnv fuel "RELIANCE.BSE".toList = none := by
  induction fuel with
  | zero => exact ⟨rfl, rfl⟩
  | succ n ih => exact ⟨ih.2, ih.1⟩

/-- C2: whenever the fetch walk returns a series — parsed from a provider
payload with (necessarily) distinct date keys, or synthesised — that
series is non-empty and strictly ascending by date (hence duplicate-free),
whatever the wire order was. -/
theorem fetch_series_sorted_nonempty (rand : ℕ → ℚ) (today : ℤ) :
    ∀ (fuel : ℕ) (env : Env) (symbol : List Char) (s : List StockData),
      (∀ (n : ℕ) (sym' : List Char) (entries : List (ℤ × WireBar)),
          env n sym' = .ok (.timeSeries entries) → (entries.map Prod.fst).Nodup) →
      fetchStockData rand today env fuel symbol = some s →
      s ≠ [] ∧ (s.map StockData.date).Pairwise (· < ·) := by
  intro fuel
  induction fuel with
  | zero =>
    intro env symbol s _ hs
    simp [fetchStockData] at hs
  | succ n ih =>
    intro env symbol s hnd hs
    cases henv : env 0 symbol with
    | transportError =>
      simp only [fetchStockData, henv] at hs
      obtain rfl := Option.some.inj hs
      exact generateMock_good rand today symbol
    | ok resp =>
      cases resp with
      | emptyObject =>
        simp only [fetchStockData, henv] at hs
        split at hs
        · split at hs
          · exact ih (envShift env) _ s (fun m s' e he => hnd (m + 1) s' e he) hs
          · split at hs
            · exact ih (envShift env) _ s (fun m s' e he => hnd (m + 1) s' e he) hs
            · obtain rfl := Option.some.inj hs
              exact generateMock_good rand today symbol
        · obtain rfl := Option.some.inj hs
          exact generateMock_good rand today symbol
      | errorOrInfo =>
        simp only [fetchStockData, henv] at hs
        split at hs
        · split at hs
          · exact ih (envShift env) _ s (fun m s' e he => hnd (m + 1) s' e he) hs
          · split at hs
            · exact ih (envShift env) _ s (fun m s' e he => hnd (m + 1) s' e he) hs
            · obtain rfl := Option.some.inj hs
              exact generateMock_good rand today symbol
        · obtain rfl := Option.some.inj hs
          exact generateMock_good rand today symbol
      | noSeriesField =>
        simp only [fetchStockData, henv] at hs
        obtain rfl := Option.some.inj hs
        exact generateMock_good rand today symbol
      | timeSeries entries =>
        simp only [fetchStockData, henv] at hs
        split at hs
        · obtain rfl := Option.some.inj hs
          exact generateMock_good rand today symbol
        · rename_i hne
          obtain rfl := Option.some.inj hs
          exact ⟨parseEntries_ne_nil hne, parseEntries_sorted (hnd 0 symbol entries henv)⟩

/-- Witness for C2: a two-day payload arriving in descending wire order is
returned re-sorted, non-empty and strictly ascending. -/
theorem fetch_series_sorted_nonempty_witness :
    parseEntries wirePair ≠ [] ∧
      ((parseEntries wirePair).map StockData.date).Pairwise (· < ·) :=
  fetch_series_sorted_nonempty rand0 0 1 tsEnv "AAPL".toList (parseEntries wirePair)
    (by
      intro n s' e he
      simp only [tsEnv] at he
      injection he with h1
      injection h1 with h2
      rw [← h2]
      decide)
    rfl

/-- For one bounded budget the attempt list always starts with the symbol
itself. -/
theorem fetchAttempts_head (env : Env) (fuel : ℕ) (s : List Char) :
    ∃ t, fetchAttempts env (fuel + 1) s = s :: t := by
  rw [fetchAttempts]
  exact ⟨_, rfl⟩

/-- A symbol the suffix test does not classify as Indian is attempted
exactly once, whatever the provider answers. -/
theorem fetchAttempts_singleton (env : Env) (fuel : ℕ) (sym : List Char)
    (hind : isIndianStock sym = false) :
    fetchAttempts env (fuel + 1) sym = [sym] := by
  rw [fetchAttempts]
  cases henv : env 0 sym with
  | transportError => rfl
  | ok resp => cases resp <;> simp [hind]

/-- A heuristically-likely-Indian symbol contains no dot. -/
theorem likely_no_dot {sym : List Char} (h : isLikelyIndianStock sym = true) :
    '.' ∉ sym := by
  intro hmem
  simp only [isLikelyIndianStock, Bool.and_eq_true, List.all_eq_true] at h
  exact absurd (h.1.1.1.2 '.' hmem) (by decide)

/-- Appending a suffix makes that suffix a Boolean suffix of the result. -/
theorem isSuffixOf_append_self (pre l : List Char) :
    l.isSuffixOf (pre ++ l) = true :=
  List.isSuffixOf_iff_suffix.mpr (List.suffix_append pre l)

/-- Appending `.NS` always produces an Indian-classified symbol. -/
theorem isIndianStock_append_ns (sym : List Char) :
    isIndianStock (sym ++ nsSuf) = true := by
  simp only [isIndianStock, Bool.or_eq_true]
  exact Or.inl (isSuffixOf_append_self sym nsSuf)

/-- A dot-free symbol is not classified as Indian. -/
theorem dotfree_not_indian {sym : List Char} (h : '.' ∉ sym) :
    isIndianStock sym = false := by
  rw [isIndianStock]
  cases hns : nsSuf.isSuffixOf sym with
  | false =>
    cases hbse : bseSuf.isSuffixOf sym with
    | false => rfl
    | true =>
      exact absurd ((List.isSuffixOf_iff_suffix.mp hbse).subset (by decide)) h
  | true =>
    exact absurd ((List.isSuffixOf_iff_suffix.mp hns).subset (by decide)) h

/-- A dotted pattern cannot match at a non-dot character. -/
theorem isPrefixList_dot_cons {c : Char} {cs p : List Char} (h : c ≠ '.') :
    isPrefixList ('.' :: p) (c :: cs) = false := by
  rw [isPrefixList]
  simp [Ne.symm h]

/-- Replacing a dotted pattern in `sym ++ "." ++ rest` with `sym` dot-free
happens entirely inside the appended part. -/
theorem replaceFirst_skip (p r rest : List Char) :
    ∀ sym : List Char, '.' ∉ sym →
      replaceFirst ('.' :: p) r (sym ++ '.' :: rest) =
        sym ++ replaceFirst ('.' :: p) r ('.' :: rest) := by
  intro sym
  induction sym with
  | nil => intro _; rfl
  | cons c cs ih =>
    intro h
    have hc : c ≠ '.' := fun hce => h (hce ▸ List.mem_cons_self c cs)
    rw [List.cons_append, replaceFirst,
      if_neg (by simp [isPrefixList_dot_cons hc]),
      ih (fun hm => h (List.mem_cons_of_mem c hm)), List.cons_append]

/-- Swapping the `.NS` suffix on a dot-free base yields the `.BSE` form. -/
theorem replaceFirst_ns_bse (sym : List Char) (h : '.' ∉ sym) :
    replaceFirst nsSuf bseSuf (sym ++ nsSuf) = sym ++ bseSuf := by
  have hstep := replaceFirst_skip "NS".toList bseSuf "NS".toList sym h
  calc replaceFirst nsSuf bseSuf (sym ++ nsSuf)
      = sym ++ replaceFirst nsSuf bseSuf nsSuf := hstep
    _ = sym ++ bseSuf := by
        rw [show replaceFirst nsSuf bseSuf nsSuf = bseSuf by decide]

/-- The search box resolves a heuristically-likely-Indian symbol to its
`.NS`-suffixed form (via the popular list when present, otherwise by
appending). -/
theorem resolve_likely (sym : List Char) (h : isLikelyIndianStock sym = true) :
    resolveSearchSymbol sym = sym ++ nsSuf := by
  rw [resolveSearchSymbol]
  cases hf : popularStocks.find? (fun st => splitBase st.psymbol == sym) with
  | none => simp [h]
  | some st =>
    have hmem := List.mem_of_find?_eq_some hf
    have hp := List.find?_some hf
    have heq : splitBase st.psymbol = sym := by simpa using hp
    simp only [popularStocks, List.mem_cons, List.not_mem_nil, or_false] at hmem
    rcases hmem with rfl | rfl | rfl | rfl | rfl | rfl | rfl | rfl | rfl | rfl <;>
      subst heq <;>
      first
        | exact absurd h (by decide)
        | decide

/-- C4 (amended): the likely-Indian resolution happens in the search
component, which replaces the raw symbol by its `.NS`-suffixed form — so
the suffixed form is the first fetch candidate and the raw form is never
fetched; when that first candidate soft-fails (empty payload or sentinel)
the fetcher attempts the sibling `.BSE` form next, before any synthesis;
and the raw unqualified symbol handed directly to the fetcher triggers no
alternate candidate at all. -/
theorem likely_indian_candidate_walk (sym : List Char) (env : Env) (fuel : ℕ)
    (h : isLikelyIndianStock sym = true)
    (hfail : isSoftFail (env 0 (sym ++ nsSuf)) = true) :
    resolveSearchSymbol sym = sym ++ nsSuf ∧
      (∃ rest, fetchAttempts env (fuel + 2) (sym ++ nsSuf) =
        (sym ++ nsSuf) :: (sym ++ bseSuf) :: rest) ∧
      fetchAttempts env (fuel + 2) sym = [sym] := by
  have hdot : '.' ∉ sym := likely_no_dot h
  refine ⟨resolve_likely sym h, ?_, ?_⟩
  · obtain ⟨t, ht⟩ := fetchAttempts_head (envShift env) fuel (sym ++ bseSuf)
    refine ⟨t, ?_⟩
    show fetchAttempts env (fuel + 1 + 1) (sym ++ nsSuf) = _
    rw [fetchAttempts]
    cases henv : env 0 (sym ++ nsSuf) with
    | transportError => rw [henv] at hfail; simp [isSoftFail] at hfail
    | ok resp =>
      cases resp with
      | emptyObject =>
        simp only [henv]
        rw [if_pos (isIndianStock_append_ns sym),
          if_pos (isSuffixOf_append_self sym nsSuf),
          replaceFirst_ns_bse sym hdot, ht]
      | errorOrInfo =>
        simp only [henv]
        rw [if_pos (isIndianStock_append_ns sym),
          if_pos (isSuffixOf_append_self sym nsSuf),
          replaceFirst_ns_bse sym hdot, ht]
      | noSeriesField => rw [henv] at hfail; simp [isSoftFail] at hfail
      | timeSeries entries => rw [henv] at hfail; simp [isSoftFail] at hfail
  · exact fetchAttempts_singleton env (fuel + 1) sym (dotfree_not_indian hdot)

/-- C4 counterexample: `"RELIANCE"` matches the likely-Indian heuristic,
yet handed directly to the fetcher under a persistent sentinel response it
is attempted exactly once — the suffixed second candidate is never tried —
and the fetch falls back to the synthetic series immediately. -/
theorem raw_symbol_no_second_candidate :
    isLikelyIndianStock "RELIANCE".toList = true ∧
      fetchAttempts sentinelEnv 5 "RELIANCE".toList = ["RELIANCE".toList] ∧
      fetchStockData rand0 0 sentinelEnv 5 "RELIANCE".toList =
        some (generateMockStockData rand0 0 "RELIANCE".toList 365) :=
  ⟨by decide, by decide, rfl⟩

/-- Witness for the amended C4 at the symbol `"RELIANCE"` under a
persistent sentinel provider. -/
theorem likely_indian_candidate_walk_witness :
    resolveSearchSymbol "RELIANCE".toList = "RELIANCE".toList ++ nsSuf ∧
      (∃ rest, fetchAttempts sentinelEnv 2 ("RELIANCE".toList ++ nsSuf) =
        ("RELIANCE".toList ++ nsSuf) :: ("RELIANCE".toList ++ bseSuf) :: rest) ∧
      fetchAttempts sentinelEnv 2 "RELIANCE".toList = ["RELIANCE".toList] :=
  likely_indian_candidate_walk "RELIANCE".toList sentinelEnv 0 (by decide) rfl
